import Mathlib

/-!
Verification of the knowledge-base AI chatbot backend.

Shallow embedding of the query-time retrieval pipeline and the sync/batch
services of the repository:

* `RelevanceChecker` — `app/core/agents/relevance_checker.py`
* `EmbeddingSvc`     — `app/core/services/embedding_service.py`
* `VectorDB`         — `app/core/services/vector_db_service.py`
* `RAGSvc`           — `app/core/services/rag_service.py`
* `Collector`        — `app/core/services/data_collector.py`
* `Deletion`         — `app/core/services/deletion_detector.py`
* `Retry`            — `batch/retry_handler.py`

Python floats are modelled as rationals (`ℚ`): every claim below is about
orderings and exact branch conditions, which the rational model preserves.
External effects (OpenAI provider calls, the LLM, the SQLAlchemy session)
are modelled as explicit function parameters / explicit store values, with
exceptions as `Except`.
-/

/-- Python's `not text or not text.strip()`: the string is empty or
consists only of whitespace. -/
def isBlank (s : String) : Bool := s.toList.all Char.isWhitespace

namespace RelevanceChecker

/-- One entry of `state["search_results"]`: the only field the relevance
checker reads is `similarity_score`. -/
structure SearchResult where
  similarity_score : ℚ
  deriving Repr, DecidableEq

/-- The slice of `ChatState` read and written by `relevance_checker`. -/
structure ChatState where
  search_results : List SearchResult
  user_query : String
  deriving Repr, DecidableEq

/-- The value written into `state["relevance_decision"]`. -/
inductive Decision where
  | relevant
  | irrelevant
  deriving Repr, DecidableEq

/-- `SIMILARITY_THRESHOLD = 0.35` from `relevance_checker.py`. -/
def SIMILARITY_THRESHOLD : ℚ := 35 / 100

/-- `search_results[0].get("similarity_score", 0.0) if search_results else 0.0`. -/
def topScore (results : List SearchResult) : ℚ :=
  match results with
  | [] => 0
  | r :: _ => r.similarity_score

/-- The fallback taken in the `except` handler of check 3 of
`relevance_checker`: `if top_score >= SIMILARITY_THRESHOLD` then relevant
else irrelevant. -/
def exceptFallback (top_score : ℚ) : Decision :=
  if SIMILARITY_THRESHOLD ≤ top_score then Decision.relevant else Decision.irrelevant

/-- `relevance_checker(state)` from `relevance_checker.py`.

The LLM semantic check (`LLMService().check_relevance`, check 3) is an
external call; it is passed in as `llmCheck`, whose `Except.error` case
models the call raising an exception.  The returned `Bool` (second
component) records whether check 3 was reached, i.e. whether the LLM call
was invoked at all. -/
def relevance_checker (llmCheck : String → List SearchResult → Except Unit Bool)
    (state : ChatState) : Decision × Bool :=
  let search_results := state.search_results
  -- Check 1: Do we have any results?
  if search_results = [] then (Decision.irrelevant, false)
  else
    -- Check 2: Similarity score threshold
    let top_score := topScore search_results
    if top_score < SIMILARITY_THRESHOLD then (Decision.irrelevant, false)
    else
      -- Check 3: LLM-based semantic relevance check
      match llmCheck state.user_query (search_results.take 3) with
      | Except.ok true => (Decision.relevant, true)
      | Except.ok false => (Decision.irrelevant, true)
      | Except.error _ => (exceptFallback top_score, true)

end RelevanceChecker

namespace EmbeddingSvc

/-- `EMBEDDING_DIMENSION = 3072` from `embedding_service.py`. -/
def EMBEDDING_DIMENSION : Nat := 3072

/-- `DEFAULT_BATCH_SIZE = 100` from `embedding_service.py`. -/
def DEFAULT_BATCH_SIZE : Nat := 100

/-- `max_chars = 30000` truncation budget from `embedding_service.py`. -/
def MAX_CHARS : Nat := 30000

/-- `EmbeddingService.get_embedding(text)`.

The provider call `self.client.embeddings.create(input=text, ...)` is the
parameter `provider1`; its `Except.error` case models the call raising,
which `get_embedding` re-raises.  `self.dimension` is `dimension`. -/
def get_embedding (provider1 : String → Except Unit (List ℚ)) (dimension : Nat)
    (text : String) : Except Unit (List ℚ) :=
  if isBlank text then Except.ok (List.replicate dimension 0)
  else
    let text' := if MAX_CHARS < text.length then (text.toList.take MAX_CHARS).asString else text
    provider1 text'

/-- The per-text preparation inside `get_embeddings_batch`'s loop:
empty/whitespace-only text becomes the placeholder `" "`, over-long text is
truncated to `max_chars`, other text passes through. -/
def prepare (text : String) : String :=
  if isBlank text then " "
  else if MAX_CHARS < text.length then (text.toList.take MAX_CHARS).asString
  else text

/-- The zero vector used for a failed batch. -/
def zeroVec (dimension : Nat) : List ℚ := List.replicate dimension 0

/-- The `for i in range(0, len(texts), batch_size)` loop of
`get_embeddings_batch`: each iteration takes the next `bs` texts as one
batch, calls the provider on the prepared batch, and on success extends
the accumulator with the returned embeddings, on failure with one zero
vector per text of the batch. -/
def processBatches (provider : List String → Except Unit (List (List ℚ)))
    (dimension : Nat) (bs : Nat) : List String → List (List ℚ)
  | [] => []
  | t :: ts =>
    let batch := t :: ts.take (bs - 1)
    (match provider (batch.map prepare) with
     | Except.ok embs => embs
     | Except.error _ => batch.map fun _ => zeroVec dimension) ++
      processBatches provider dimension bs (ts.drop (bs - 1))
  termination_by l => l.length
  decreasing_by simp; omega

/-- `batch_size = batch_size or self.batch_size`: both `None` and the
falsy `0` fall back to `self.batch_size = DEFAULT_BATCH_SIZE`, so the
effective batch size is always positive. -/
def effectiveBatchSize (batch_size? : Option Nat) : Nat :=
  match batch_size? with
  | none => DEFAULT_BATCH_SIZE
  | some 0 => DEFAULT_BATCH_SIZE
  | some b => b

/-- `EmbeddingService.get_embeddings_batch(texts, batch_size)`. -/
def get_embeddings_batch (provider : List String → Except Unit (List (List ℚ)))
    (dimension : Nat) (texts : List String) (batch_size? : Option Nat) :
    List (List ℚ) :=
  if texts = [] then []
  else processBatches provider dimension (effectiveBatchSize batch_size?) texts

end EmbeddingSvc

namespace VectorDB

/-- One metadata record of `VectorDBService.metadata`, restricted to the
keys the retrieval path reads (`chunk_id`, `doc_id`, `chunk_text`); an
absent key is `none` / the empty string, matching `dict.get`. -/
structure Meta where
  chunk_id : Option Nat
  doc_id : Option String
  chunk_text : String
  deriving Repr, DecidableEq

/-- The empty dict `{}` used when a hit has no stored metadata. -/
def Meta.empty : Meta := ⟨none, none, ""⟩

/-- The in-memory state of a `VectorDBService`: configured `dimension`,
the FAISS `IndexFlatL2` (`none` when uninitialized, otherwise the list of
stored vectors in insertion order — `ntotal` is its length), and the
parallel `metadata` list. -/
structure State where
  dimension : Nat
  index : Option (List (List ℚ))
  metadata : List Meta
  deriving Repr, DecidableEq

/-- Squared L2 distance, the metric of `faiss.IndexFlatL2`. -/
def l2sq (u v : List ℚ) : ℚ :=
  ((u.zip v).map fun p => (p.1 - p.2) ^ 2).sum

/-- Insertion step of the distance sort (stable, ascending in the second
component). -/
def insertDist (a : Nat × ℚ) : List (Nat × ℚ) → List (Nat × ℚ)
  | [] => [a]
  | b :: bs => if a.2 ≤ b.2 then a :: b :: bs else b :: insertDist a bs

/-- Sort id/distance pairs by ascending distance. -/
def sortDist : List (Nat × ℚ) → List (Nat × ℚ)
  | [] => []
  | a :: as => insertDist a (sortDist as)

/-- Modelled external library behaviour: `faiss.IndexFlatL2.search`
performs exact exhaustive search and returns the `k` nearest stored
vectors as (ordinal id, squared L2 distance) pairs ordered by ascending
distance. -/
def faissSearch (vecs : List (List ℚ)) (q : List ℚ) (k : Nat) :
    List (Nat × ℚ) :=
  (sortDist (vecs.enum.map fun p => (p.1, l2sq q p.2))).take k

/-- `VectorDBService.search(query_vector, k)`.

Returns `(index_id, distance, metadata)` triples; a raised `ValueError`
is the `Except.error` case.  The FAISS `-1` sentinel for missing results
cannot occur here because `k` is clamped to `ntotal` before the search. -/
def search (st : State) (query_vector : List ℚ) (k : Nat) :
    Except String (List (Nat × ℚ × Meta)) :=
  match st.index with
  | none => Except.ok []
  | some vecs =>
    if vecs.length = 0 then Except.ok []
    else if query_vector.length ≠ st.dimension then
      Except.error "Query vector dimension mismatch"
    else
      let k' := min k vecs.length
      Except.ok ((faissSearch vecs query_vector k').map fun p =>
        (p.1, p.2, (st.metadata.get? p.1).getD Meta.empty))

/-- One scored search hit as built by `search_with_scores`. -/
structure ScoredResult where
  index_id : Nat
  distance : ℚ
  similarity_score : ℚ
  metadata : Meta
  deriving Repr, DecidableEq

/-- `VectorDBService.search_with_scores(query_vector, k, score_threshold)`:
converts each L2 distance to `similarity = 1 / (1 + distance)` and drops
hits below the optional score threshold. -/
def search_with_scores (st : State) (query_vector : List ℚ) (k : Nat)
    (score_threshold : Option ℚ) : Except String (List ScoredResult) :=
  (search st query_vector k).map fun results =>
    results.filterMap fun t =>
      let similarity : ℚ := 1 / (1 + t.2.1)
      match score_threshold with
      | some thr =>
        if similarity < thr then none
        else some ⟨t.1, t.2.1, similarity, t.2.2⟩
      | none => some ⟨t.1, t.2.1, similarity, t.2.2⟩

/-- The persisted FAISS index file: its dimension `d` and stored vectors. -/
structure IndexFile where
  d : Nat
  vectors : List (List ℚ)
  deriving Repr, DecidableEq

/-- `VectorDBService.load_index(filepath)`.

`indexFile` is the content of the FAISS file at `filepath` (`none` =
file missing, raising `FileNotFoundError` = `Except.error`);
`metadataFile` is the content of the paired `.pkl` file (`none` = file
missing, in which case the loader only logs a warning, sets `metadata`
to the empty list and proceeds). -/
def load_index (st : State) (indexFile : Option IndexFile)
    (metadataFile : Option (List Meta)) : Except String State :=
  match indexFile with
  | none => Except.error "Index file not found"
  | some f =>
    let st1 : State := { st with index := some f.vectors, dimension := f.d }
    match metadataFile with
    | some metas => Except.ok { st1 with metadata := metas }
    | none => Except.ok { st1 with metadata := [] }

end VectorDB

namespace RAGSvc

open VectorDB

/-- One element of the list returned by `RAGService.search_documents`:
the document fields resolved from the database (`detail`, of abstract
type `δ` since the claims never inspect them) plus the fields copied
from the vector hit. -/
structure SearchHit (δ : Type) where
  detail : δ
  similarity_score : ℚ
  distance : ℚ
  chunk_text : String
  deriving Repr, DecidableEq

/-- The `for result in search_results` loop of `search_documents`:
`lookup` models `_get_document_details` (the SQLAlchemy join plus the
soft-delete / doc-type / date filters), keyed by the hit's `chunk_id`
and `doc_id`; a hit whose metadata has neither key is skipped by
`continue` (which also skips the early-exit length check of the
iteration); after a processed hit the loop breaks once `top_k` results
are collected. -/
def collectResults {δ : Type} (lookup : Option Nat → Option String → Option δ)
    (top_k : Nat) : List ScoredResult → List (SearchHit δ) → List (SearchHit δ)
  | [], acc => acc
  | r :: rest, acc =>
    if r.metadata.chunk_id = none ∧ r.metadata.doc_id = none then
      collectResults lookup top_k rest acc
    else
      match lookup r.metadata.chunk_id r.metadata.doc_id with
      | some d =>
        if top_k ≤ (acc ++
            [(⟨d, r.similarity_score, r.distance, r.metadata.chunk_text⟩ : SearchHit δ)]).length
        then acc ++ [⟨d, r.similarity_score, r.distance, r.metadata.chunk_text⟩]
        else collectResults lookup top_k rest
          (acc ++ [⟨d, r.similarity_score, r.distance, r.metadata.chunk_text⟩])
      | none =>
        if top_k ≤ acc.length then acc else collectResults lookup top_k rest acc

/-- `RAGService.search_documents(query, top_k, score_threshold, ...)`.

`embed` is `EmbeddingService.get_embedding` (its failure is caught and
turned into an empty result); `st` is the underlying `VectorDBService`
state; `lookup` is the database resolution of one hit.  A `ValueError`
escaping `search_with_scores` propagates (`Except.error`).  The index is
over-fetched at `k = top_k * 3` and then post-filtered down to at most
`top_k` accepted results. -/
def search_documents {δ : Type} (embed : String → Except Unit (List ℚ))
    (st : VectorDB.State) (lookup : Option Nat → Option String → Option δ)
    (query : String) (top_k : Nat) (score_threshold : Option ℚ) :
    Except String (List (SearchHit δ)) :=
  if isBlank query then Except.ok []
  else
    match embed query with
    | Except.error _ => Except.ok []
    | Except.ok query_embedding =>
      (search_with_scores st query_embedding (top_k * 3) score_threshold).map
        fun search_results =>
          if search_results = [] then []
          else collectResults lookup top_k search_results []

end RAGSvc

namespace Collector

/-- A `Document` row of the document store, restricted to the columns
`_upsert_document` and the deletion detector read or write.  Timestamps
are abstracted to `Nat` instants; the JSON `metadata_` column is elided
(never read by any claim). -/
structure Document where
  doc_id : String
  doc_type : String
  title : String
  url : Option String
  content : String
  author : Option String
  created_at : Nat
  updated_at : Option Nat
  last_synced_at : Nat
  deleted : Bool
  deriving Repr, DecidableEq

/-- The incoming `doc_data` dict built by
`format_issue_as_document` / `format_page_as_document`.  The
`created_at` / `updated_at` fields carry the result of
`_parse_datetime` (`none` when absent or unparsable). -/
structure DocData where
  doc_id : String
  doc_type : String
  title : String
  url : Option String
  content : String
  author : Option String
  created_at : Option Nat
  updated_at : Option Nat
  deriving Repr, DecidableEq

/-- The document store: the `documents` table as a list of rows in
insertion order.  `db.query(Document).filter(...).first()` is `find?`. -/
abbrev Store := List Document

/-- In-place mutation of the first row satisfying `p`, as SQLAlchemy's
mutation of the ORM object returned by `.first()`. -/
def updateFirst {α : Type} (p : α → Bool) (f : α → α) : List α → List α
  | [] => []
  | a :: as => if p a then f a :: as else a :: updateFirst p f as

/-- The field refresh of the `# Update existing document` branch of
`_upsert_document` (`now` is `datetime.utcnow()`). -/
def applyUpdate (dd : DocData) (now : Nat) (existing : Document) : Document :=
  { existing with
    title := dd.title
    url := dd.url
    content := dd.content
    author := dd.author
    updated_at := dd.updated_at
    last_synced_at := now
    deleted := false }

/-- The new row built in the `# Create new document` branch of
`_upsert_document`. -/
def newDocument (dd : DocData) (now : Nat) : Document :=
  { doc_id := dd.doc_id
    doc_type := dd.doc_type
    title := dd.title
    url := dd.url
    content := dd.content
    author := dd.author
    created_at := dd.created_at.getD now
    updated_at := dd.updated_at.getD now
    last_synced_at := now
    deleted := false }

/-- `DataCollector._upsert_document(doc_data)`: returns the reported
outcome (`"added"` / `"updated"` / `"skipped"`) together with the store
after the call. -/
def upsertDocument (store : Store) (dd : DocData) (now : Nat) :
    String × Store :=
  match store.find? (fun d => d.doc_id == dd.doc_id) with
  | some existing =>
    if existing.content == dd.content && !existing.deleted then
      ("skipped", store)
    else
      ("updated", updateFirst (fun d => d.doc_id == dd.doc_id) (applyUpdate dd now) store)
  | none => ("added", store ++ [newDocument dd now])

end Collector

namespace Deletion

open Collector

/-- `DeletionDetector.get_stored_doc_ids(doc_type)`: the set of `doc_id`s
of non-deleted rows of the given type (a Python `set`, so deduplicated). -/
def get_stored_doc_ids (store : Store) (doc_type : String) : List String :=
  ((store.filter fun d => d.doc_type == doc_type && !d.deleted).map
    Document.doc_id).dedup

/-- `DeletionDetector.detect_deleted_documents(doc_type, current_doc_ids)`:
soft-deletes every stored non-deleted document of the type that is absent
from `current_doc_ids`, in one bulk update filtered only by
`doc_id.in_(deleted_doc_ids)`; returns the bulk update's row count and
the store after the call. -/
def detect_deleted_documents (store : Store) (doc_type : String)
    (current_doc_ids : List String) (now : Nat) : Nat × Store :=
  let stored_doc_ids := get_stored_doc_ids store doc_type
  let deleted_doc_ids := stored_doc_ids.filter fun i => !current_doc_ids.contains i
  if deleted_doc_ids = [] then (0, store)
  else
    let affected := store.filter fun d => deleted_doc_ids.contains d.doc_id
    (affected.length,
      store.map fun d =>
        if deleted_doc_ids.contains d.doc_id then
          { d with deleted := true, last_synced_at := now }
        else d)

end Deletion

namespace Retry

/-- The outcome of one run of the wrapped unit of work under
`retry_with_backoff`: normal return, the distinguished `RetryError`
carrying the last underlying exception after exhausting all attempts, or
an exception outside the allow-list propagating uncaught. -/
inductive RetryOutcome (E α : Type) where
  | ok (a : α)
  | retryError (last : E)
  | uncaught (e : E)
  deriving Repr, DecidableEq

/-- The default `exceptions=(Exception,)` tuple of `retry_with_backoff`:
every Python exception is an instance of `Exception`, so the default
allow-list matches everything. -/
def defaultExceptions {E : Type} : E → Bool := fun _ => true

/-- The `for attempt in range(max_retries + 1)` loop of the wrapper built
by `retry_with_backoff`.  `f attempt` is the call `func(*args, **kwargs)`
on that attempt; an exception `e` is caught only when `allow e` holds
(the `except exceptions as e` clause); `fuel` counts the retries still
available, so `fuel = 0` is the `attempt == max_retries` iteration.
Backoff delays (`time.sleep`) are real-time effects with no bearing on
the returned value and are not modelled. -/
def retryGo {E α : Type} (allow : E → Bool) (f : Nat → Except E α) :
    Nat → Nat → RetryOutcome E α
  | attempt, 0 =>
    match f attempt with
    | Except.ok a => RetryOutcome.ok a
    | Except.error e =>
      if allow e then RetryOutcome.retryError e else RetryOutcome.uncaught e
  | attempt, fuel + 1 =>
    match f attempt with
    | Except.ok a => RetryOutcome.ok a
    | Except.error e =>
      if allow e then retryGo allow f (attempt + 1) fuel
      else RetryOutcome.uncaught e

/-- `retry_with_backoff(max_retries=..., exceptions=allow)(func)` applied
to its arguments: runs the attempt loop starting at attempt 0 with
`max_retries` retries available. -/
def retry_with_backoff {E α : Type} (allow : E → Bool) (max_retries : Nat)
    (f : Nat → Except E α) : RetryOutcome E α :=
  retryGo allow f 0 max_retries

end Retry

/-! ## Theorems -/

open RelevanceChecker EmbeddingSvc VectorDB RAGSvc Collector Deletion Retry

/-- C1: for every chat state with non-empty search results whose top
similarity score is below the fixed floor 0.35, `relevance_checker`
produces `irrelevant` without invoking the semantic-check LLM call
(regardless of what that call would do, including failing), and even the
exception-handler fallback of the LLM branch yields `irrelevant` at such
a score, never an error. -/
theorem C1_score_floor_irrelevant
    (llmCheck : String → List SearchResult → Except Unit Bool)
    (st : ChatState) (hne : st.search_results ≠ [])
    (hlow : topScore st.search_results < SIMILARITY_THRESHOLD) :
    relevance_checker llmCheck st = (Decision.irrelevant, false) ∧
    exceptFallback (topScore st.search_results) = Decision.irrelevant := by
  constructor
  · simp [relevance_checker, hne, hlow]
  · simp [exceptFallback, not_le.mpr hlow]

/-- Witness for C1 at a concrete state with top score 0.1 < 0.35 and a
failing LLM call. -/
theorem C1_score_floor_irrelevant_witness :
    relevance_checker (fun _ _ => Except.error ()) ⟨[⟨1 / 10⟩], "q"⟩ =
      (Decision.irrelevant, false) ∧
    exceptFallback (topScore [⟨1 / 10⟩]) = Decision.irrelevant :=
  C1_score_floor_irrelevant (fun _ _ => Except.error ()) ⟨[⟨1 / 10⟩], "q"⟩
    (by simp) (by norm_num [topScore, SIMILARITY_THRESHOLD])

/-- First-match update only touches the row `find?` returned. -/
theorem updateFirst_find? {α : Type} (p : α → Bool) (f : α → α)
    (hpf : ∀ a, p a = true → p (f a) = true) :
    ∀ (l : List α) (a : α), l.find? p = some a →
      (updateFirst p f l).find? p = some (f a) := by
  intro l
  induction l with
  | nil => intro a h; simp at h
  | cons b bs ih =>
    intro a h
    by_cases hb : p b = true
    · rw [List.find?_cons_of_pos _ hb] at h
      cases h
      rw [updateFirst, if_pos hb, List.find?_cons_of_pos _ (hpf b hb)]
    · rw [List.find?_cons_of_neg _ hb] at h
      rw [updateFirst, if_neg hb, List.find?_cons_of_neg _ hb]
      exact ih a h

/-- C5: upserting the same unchanged item twice never duplicates its
`doc_id`: from a store without the id, the first upsert reports
`"added"`, the second upsert of the identical `doc_data` reports
`"skipped"` and leaves the store unchanged, and the store holds exactly
one row with that `doc_id`. -/
theorem C5_upsert_skip_unchanged (store : Store) (dd : DocData) (now now' : Nat)
    (habs : store.find? (fun d => d.doc_id == dd.doc_id) = none) :
    (upsertDocument store dd now).1 = "added" ∧
    upsertDocument (upsertDocument store dd now).2 dd now' =
      ("skipped", (upsertDocument store dd now).2) ∧
    (upsertDocument store dd now).2.countP (fun d => d.doc_id == dd.doc_id) = 1 := by
  have hstore2 : (upsertDocument store dd now).2 = store ++ [newDocument dd now] := by
    simp [upsertDocument, habs]
  have hfind : (store ++ [newDocument dd now]).find? (fun d => d.doc_id == dd.doc_id)
      = some (newDocument dd now) := by
    rw [List.find?_append, habs]
    simp [newDocument]
  refine ⟨by simp [upsertDocument, habs], ?_, ?_⟩
  · rw [hstore2]
    unfold upsertDocument
    rw [hfind]
    simp [newDocument]
  · rw [hstore2, List.countP_append]
    have h0 : store.countP (fun d => d.doc_id == dd.doc_id) = 0 :=
      List.countP_eq_zero.mpr (List.find?_eq_none.mp habs)
    simp [h0, List.countP_cons, newDocument]

/-- Witness for C5: a fresh Jira document upserted twice into the empty
store. -/
theorem C5_upsert_skip_unchanged_witness :
    (upsertDocument [] ⟨"jira-A", "jira", "t", none, "c", none, none, none⟩ 5).1 = "added" ∧
    upsertDocument
        (upsertDocument [] ⟨"jira-A", "jira", "t", none, "c", none, none, none⟩ 5).2
        ⟨"jira-A", "jira", "t", none, "c", none, none, none⟩ 6 =
      ("skipped",
        (upsertDocument [] ⟨"jira-A", "jira", "t", none, "c", none, none, none⟩ 5).2) ∧
    (upsertDocument [] ⟨"jira-A", "jira", "t", none, "c", none, none, none⟩ 5).2.countP
        (fun d => d.doc_id == "jira-A") = 1 :=
  C5_upsert_skip_unchanged [] ⟨"jira-A", "jira", "t", none, "c", none, none, none⟩ 5 6 rfl

/-- C10: upserting an item whose content is byte-identical to a stored
but soft-deleted row takes the update branch: it reports `"updated"`
(not `"skipped"`), refreshes the row's fields in place, and clears the
soft-delete flag. -/
theorem C10_upsert_undeletes (store : Store) (dd : DocData) (now : Nat) (ex : Document)
    (hfind : store.find? (fun d => d.doc_id == dd.doc_id) = some ex)
    (hcontent : ex.content = dd.content) (hdel : ex.deleted = true) :
    upsertDocument store dd now =
      ("updated", updateFirst (fun d => d.doc_id == dd.doc_id) (applyUpdate dd now) store) ∧
    (updateFirst (fun d => d.doc_id == dd.doc_id) (applyUpdate dd now) store).find?
        (fun d => d.doc_id == dd.doc_id) = some (applyUpdate dd now ex) ∧
    (applyUpdate dd now ex).deleted = false := by
  refine ⟨by simp [upsertDocument, hfind, hdel], ?_, rfl⟩
  exact updateFirst_find? _ _ (fun a ha => by simpa [applyUpdate] using ha) store ex hfind

/-- Witness for C10: a soft-deleted row reappearing upstream with
unchanged content. -/
theorem C10_upsert_undeletes_witness :
    upsertDocument [⟨"jira-A", "jira", "t0", none, "c", none, 0, none, 0, true⟩]
        ⟨"jira-A", "jira", "t", none, "c", none, none, none⟩ 7 =
      ("updated",
        updateFirst (fun d => d.doc_id == "jira-A")
          (applyUpdate ⟨"jira-A", "jira", "t", none, "c", none, none, none⟩ 7)
          [⟨"jira-A", "jira", "t0", none, "c", none, 0, none, 0, true⟩]) ∧
    (updateFirst (fun d => d.doc_id == "jira-A")
        (applyUpdate ⟨"jira-A", "jira", "t", none, "c", none, none, none⟩ 7)
        [⟨"jira-A", "jira", "t0", none, "c", none, 0, none, 0, true⟩]).find?
        (fun d => d.doc_id == "jira-A") =
      some (applyUpdate ⟨"jira-A", "jira", "t", none, "c", none, none, none⟩ 7
        ⟨"jira-A", "jira", "t0", none, "c", none, 0, none, 0, true⟩) ∧
    (applyUpdate ⟨"jira-A", "jira", "t", none, "c", none, none, none⟩ 7
        ⟨"jira-A", "jira", "t0", none, "c", none, 0, none, 0, true⟩).deleted = false :=
  C10_upsert_undeletes _ _ 7 _ rfl rfl rfl

/-- Membership in `get_stored_doc_ids` unfolded. -/
theorem mem_get_stored_doc_ids (store : Store) (doc_type : String) (i : String) :
    i ∈ get_stored_doc_ids store doc_type ↔
      ∃ d, d ∈ store ∧ (d.doc_type == doc_type && !d.deleted) = true ∧ d.doc_id = i := by
  simp only [get_stored_doc_ids, List.mem_dedup, List.mem_map, List.mem_filter]
  constructor
  · rintro ⟨d, ⟨hd, hq⟩, hid⟩
    exact ⟨d, hd, hq, hid⟩
  · rintro ⟨d, hd, hq, hid⟩
    exact ⟨d, ⟨hd, hq⟩, hid⟩

/-- After one deletion-detection pass, every non-deleted stored id of the
processed type is present upstream. -/
theorem detect_deleted_stored_subset (store : Store) (doc_type : String)
    (current : List String) (now : Nat) :
    ∀ i ∈ get_stored_doc_ids (detect_deleted_documents store doc_type current now).2
        doc_type, current.contains i = true := by
  intro i hi
  simp only [detect_deleted_documents] at hi
  by_cases hnil :
      (get_stored_doc_ids store doc_type).filter (fun j => !current.contains j) = []
  · rw [if_pos hnil] at hi
    have := List.filter_eq_nil_iff.mp hnil i hi
    simpa using this
  · rw [if_neg hnil] at hi
    rw [mem_get_stored_doc_ids] at hi
    obtain ⟨d', hd', hq, hid⟩ := hi
    rw [List.mem_map] at hd'
    obtain ⟨d, hd, hgd⟩ := hd'
    by_cases hD : ((get_stored_doc_ids store doc_type).filter
        (fun j => !current.contains j)).contains d.doc_id = true
    · rw [if_pos hD] at hgd
      subst hgd
      simp at hq
    · rw [if_neg hD] at hgd
      subst hgd
      subst hid
      have hmem : d.doc_id ∈ get_stored_doc_ids store doc_type :=
        (mem_get_stored_doc_ids store doc_type d.doc_id).mpr ⟨d, hd, hq, rfl⟩
      by_contra hcur
      apply hD
      have hfil : d.doc_id ∈ (get_stored_doc_ids store doc_type).filter
          (fun j => !current.contains j) :=
        List.mem_filter.mpr ⟨hmem, by simpa using hcur⟩
      simpa using hfil

/-- C6: deletion detection is idempotent — running
`detect_deleted_documents` a second time on the resulting store, with
the same current-identifier set, marks zero additional documents as
deleted. -/
theorem C6_deletion_detection_idempotent (store : Store) (doc_type : String)
    (current : List String) (now now' : Nat) :
    (detect_deleted_documents (detect_deleted_documents store doc_type current now).2
        doc_type current now').1 = 0 := by
  have hnil : (get_stored_doc_ids (detect_deleted_documents store doc_type current now).2
      doc_type).filter (fun i => !current.contains i) = [] := by
    apply List.filter_eq_nil_iff.mpr
    intro i hi
    have := detect_deleted_stored_subset store doc_type current now i hi
    simpa using this
  conv_lhs => rw [detect_deleted_documents]
  rw [if_pos hnil]

/-- Exhausting every attempt on allow-listed failures yields the
distinguished `RetryError` carrying the final attempt's exception. -/
theorem retryGo_exhaust {E α : Type} (allow : E → Bool) (f : Nat → Except E α)
    (es : Nat → E) :
    ∀ (fuel attempt : Nat),
      (∀ a, attempt ≤ a → a ≤ attempt + fuel →
        f a = Except.error (es a) ∧ allow (es a) = true) →
      retryGo allow f attempt fuel = RetryOutcome.retryError (es (attempt + fuel)) := by
  intro fuel
  induction fuel with
  | zero =>
    intro attempt h
    obtain ⟨hf, ha⟩ := h attempt le_rfl (by omega)
    simp [retryGo, hf, ha]
  | succ n ih =>
    intro attempt h
    obtain ⟨hf, ha⟩ := h attempt le_rfl (by omega)
    rw [retryGo]
    rw [hf]
    simp only [ha, if_true]
    rw [ih (attempt + 1) (fun a h1 h2 => h a (by omega) (by omega))]
    have harith : attempt + 1 + n = attempt + (n + 1) := by omega
    rw [harith]

/-- C9 (amended): the retry wrapper catches and retries only exceptions
matching its `exceptions` allow-list — a non-matching exception raised on
the first attempt propagates uncaught, with no retry — and when every
attempt fails with an allow-listed exception it raises the distinguished
`RetryError` carrying the last attempt's underlying exception.  (The
*default* allow-list `(Exception,)` matches every exception, see the
counterexample.) -/
theorem C9_retry_allowlist_exhaustion :
    (∀ (E α : Type) (allow : E → Bool) (max_retries : Nat) (f : Nat → Except E α)
        (e : E), f 0 = Except.error e → allow e = false →
        retry_with_backoff allow max_retries f = RetryOutcome.uncaught e) ∧
    (∀ (E α : Type) (allow : E → Bool) (max_retries : Nat) (f : Nat → Except E α)
        (es : Nat → E),
        (∀ a, a ≤ max_retries → f a = Except.error (es a) ∧ allow (es a) = true) →
        retry_with_backoff allow max_retries f =
          RetryOutcome.retryError (es max_retries)) := by
  constructor
  · intro E α allow max_retries f e hf ha
    cases max_retries <;> simp [retry_with_backoff, retryGo, hf, ha]
  · intro E α allow max_retries f es h
    have := retryGo_exhaust allow f es max_retries 0
      (fun a h1 h2 => h a (by omega))
    simpa using this

/-- Witness for C9: an exception outside the allow-list propagates
uncaught; all-failing allow-listed attempts end in `RetryError` carrying
the exception of the last attempt (attempt 2 of 0,1,2). -/
theorem C9_retry_allowlist_exhaustion_witness :
    retry_with_backoff (fun e => e == 3) 2 (fun _ => (Except.error 7 : Except Nat Nat)) =
      RetryOutcome.uncaught 7 ∧
    retry_with_backoff (fun _ => true) 2 (fun n => (Except.error n : Except Nat Nat)) =
      RetryOutcome.retryError 2 :=
  ⟨C9_retry_allowlist_exhaustion.1 Nat Nat (fun e => e == 3) 2
      (fun _ => Except.error 7) 7 rfl rfl,
    C9_retry_allowlist_exhaustion.2 Nat Nat (fun _ => true) 2
      (fun n => Except.error n) (fun n => n) (fun a _ => ⟨rfl, rfl⟩)⟩

/-- C9 counterexample: with the *default* `exceptions=(Exception,)`
allow-list (which matches every exception) an arbitrary, unexpected
exception on the first attempt *is* retried: the wrapped work fails on
attempt 0 and the wrapper still returns the success of attempt 1. -/
theorem C9_counterexample_default_retries_everything :
    (fun n => if n = 0 then Except.error 7 else Except.ok 42 : Nat → Except Nat Nat) 0 =
      Except.error 7 ∧
    retry_with_backoff defaultExceptions 3
      (fun n => if n = 0 then Except.error 7 else Except.ok 42) = RetryOutcome.ok 42 :=
  ⟨rfl, rfl⟩

/-- C8: the code at the claim's failing input — `load_index` performs no
sanity check pairing the two files: with the metadata file missing it
proceeds with an empty metadata list (warning only), and with a metadata
entry count different from the loaded vector count (here 1 entry for 2
vectors) it also proceeds; in both cases it returns the loaded index
instead of refusing. -/
theorem C8_load_index_accepts_mismatch :
    load_index ⟨3, none, []⟩ (some ⟨1, [[1], [2]]⟩) none =
      Except.ok ⟨1, some [[1], [2]], []⟩ ∧
    load_index ⟨3, none, []⟩ (some ⟨1, [[1], [2]]⟩) (some [⟨none, none, "m"⟩]) =
      Except.ok ⟨1, some [[1], [2]], [⟨none, none, "m"⟩]⟩ :=
  ⟨rfl, rfl⟩

/-- C7 counterexample: on an uninitialized index (and likewise on an
initialized but empty one), `search` with a query vector of the wrong
dimensionality (2 instead of the configured 3) returns an empty result
list instead of failing with an error. -/
theorem C7_counterexample_empty_index_skips_check :
    search ⟨3, none, []⟩ [1, 1] 5 = Except.ok [] ∧
    search ⟨3, some [], []⟩ [1, 1] 5 = Except.ok [] :=
  ⟨rfl, rfl⟩

/-- C7 (amended): for every index state whose index is initialized and
non-empty, `search` rejects a query vector whose dimensionality differs
from the configured dimension with an error — it never truncates or pads
the query and returns no results for it; on an empty or uninitialized
index it returns the empty list regardless of the query's dimension. -/
theorem C7_search_rejects_dim_mismatch (st : VectorDB.State)
    (vecs : List (List ℚ)) (q : List ℚ) (k : Nat)
    (hidx : st.index = some vecs) (hne : vecs ≠ [])
    (hdim : q.length ≠ st.dimension) :
    search st q k = Except.error "Query vector dimension mismatch" := by
  have hlen : ¬vecs.length = 0 := by
    simpa [List.length_eq_zero] using hne
  simp [search, hidx, hlen, hdim]

/-- Witness for C7 at a one-vector index of dimension 2 and a query of
dimension 1. -/
theorem C7_search_rejects_dim_mismatch_witness :
    search ⟨2, some [[1, 1]], []⟩ [1] 5 =
      Except.error "Query vector dimension mismatch" :=
  C7_search_rejects_dim_mismatch ⟨2, some [[1, 1]], []⟩ [[1, 1]] [1] 5 rfl
    (by simp) (by simp)

/-- C4 counterexample: a whitespace-only text in a *batch* does not yield
a zero vector — the batch path sends the `" "` placeholder to the
provider and returns the provider's embedding for it (here `[1]`, not
the zero vector `[0]`). -/
theorem C4_counterexample_batch_placeholder :
    isBlank "  " = true ∧
    get_embeddings_batch (fun _ => Except.ok [[1]]) 1 ["  "] none = [[1]] ∧
    [[(1 : ℚ)]] ≠ [zeroVec 1] := by
  refine ⟨rfl, ?_, by decide⟩
  rw [get_embeddings_batch, if_neg (by simp), processBatches]
  simp [processBatches, prepare]

/-- C4 (amended): for empty or whitespace-only text, the single-text
embedding returns a zero vector without any provider call (the result is
the zero vector for *every* provider, including a failing one); the
batch operation instead replaces such a text by the single-space
placeholder `" "`, which *is* sent to the provider, so the batch yields
the provider's embedding of `" "` for it — a zero vector only arises
when that whole provider call fails. -/
theorem C4_blank_text_policy :
    (∀ (provider1 : String → Except Unit (List ℚ)) (dimension : Nat) (text : String),
        isBlank text = true →
        get_embedding provider1 dimension text = Except.ok (zeroVec dimension)) ∧
    (∀ (provider : List String → Except Unit (List (List ℚ))) (dimension : Nat)
        (t : String), isBlank t = true →
        get_embeddings_batch provider dimension [t] none =
          (match provider [" "] with
           | Except.ok embs => embs
           | Except.error _ => [zeroVec dimension])) := by
  constructor
  · intro provider1 dimension text ht
    simp [get_embedding, ht, zeroVec]
  · intro provider dimension t ht
    rw [get_embeddings_batch, if_neg (by simp), processBatches]
    simp only [List.take_nil, List.drop_nil, List.map_cons, List.map_nil, prepare, ht,
      if_pos]
    cases hp : provider [" "] with
    | ok embs => simp [processBatches]
    | error e => simp [processBatches, zeroVec]

/-- Witness for C4: the single path returns a zero vector even for a
failing provider; the batch path returns the provider's embedding of the
placeholder. -/
theorem C4_blank_text_policy_witness :
    get_embedding (fun _ => Except.error ()) 2 " " = Except.ok (zeroVec 2) ∧
    get_embeddings_batch (fun _ => Except.ok [[5]]) 2 [" "] none = [[5]] :=
  ⟨C4_blank_text_policy.1 (fun _ => Except.error ()) 2 " " rfl,
    C4_blank_text_policy.2 (fun _ => Except.ok [[5]]) 2 " " rfl⟩

/-- The batch loop produces one output vector per input text whenever the
provider honours the batch-embedding contract on its successes. -/
theorem processBatches_length (provider : List String → Except Unit (List (List ℚ)))
    (dimension bs : Nat)
    (hprov : ∀ b e, provider b = Except.ok e → e.length = b.length) :
    ∀ (n : Nat) (l : List String), l.length ≤ n →
      (processBatches provider dimension bs l).length = l.length := by
  intro n
  induction n with
  | zero =>
    intro l hl
    have : l = [] := List.length_eq_zero.mp (Nat.le_zero.mp hl)
    subst this
    simp [processBatches]
  | succ n ih =>
    intro l hl
    match l with
    | [] => simp [processBatches]
    | t :: ts =>
      rw [processBatches]
      rw [List.length_append]
      have htail : (processBatches provider dimension bs (ts.drop (bs - 1))).length =
          (ts.drop (bs - 1)).length := by
        apply ih
        have := List.length_drop (bs - 1) ts
        simp at hl
        omega
      have hbatch : ∀ r, (match provider ((t :: ts.take (bs - 1)).map prepare) with
          | Except.ok embs => embs
          | Except.error _ => (t :: ts.take (bs - 1)).map fun _ => zeroVec dimension) = r →
          r.length = (t :: ts.take (bs - 1)).length := by
        intro r hr
        cases hp : provider ((t :: ts.take (bs - 1)).map prepare) with
        | ok embs =>
          rw [hp] at hr
          subst hr
          rw [hprov _ _ hp, List.length_map]
        | error e =>
          rw [hp] at hr
          subst hr
          rw [List.length_map]
      rw [htail, hbatch _ rfl]
      simp [List.length_take, List.length_drop]
      omega

/-- Every vector produced by the batch loop has the configured dimension
whenever the provider honours the dimension contract on its successes. -/
theorem processBatches_dimension (provider : List String → Except Unit (List (List ℚ)))
    (dimension bs : Nat)
    (hprov : ∀ b e, provider b = Except.ok e → ∀ v ∈ e, v.length = dimension) :
    ∀ (n : Nat) (l : List String), l.length ≤ n →
      ∀ v ∈ processBatches provider dimension bs l, v.length = dimension := by
  intro n
  induction n with
  | zero =>
    intro l hl
    have : l = [] := List.length_eq_zero.mp (Nat.le_zero.mp hl)
    subst this
    simp [processBatches]
  | succ n ih =>
    intro l hl
    match l with
    | [] => simp [processBatches]
    | t :: ts =>
      rw [processBatches]
      intro v hv
      rw [List.mem_append] at hv
      cases hv with
      | inl hv =>
        cases hp : provider ((t :: ts.take (bs - 1)).map prepare) with
        | ok embs =>
          rw [hp] at hv
          exact hprov _ _ hp v hv
        | error e =>
          rw [hp] at hv
          rw [List.mem_map] at hv
          obtain ⟨_, _, hz⟩ := hv
          rw [← hz]
          simp [zeroVec]
      | inr hv =>
        apply ih (ts.drop (bs - 1)) _ v hv
        have := List.length_drop (bs - 1) ts
        simp at hl
        omega

/-- C3: batch embedding is total and dimension-correct — for every list
of texts it returns exactly one vector per text, each of the configured
dimension (assuming the provider honours the batch contract on
successful calls), and a sub-batch whose provider call fails contributes
one zero vector per text of that batch while the run continues with the
remaining texts instead of aborting. -/
theorem C3_batch_embedding_total
    (provider : List String → Except Unit (List (List ℚ))) (dimension : Nat)
    (hprov : ∀ b e, provider b = Except.ok e →
      e.length = b.length ∧ ∀ v ∈ e, v.length = dimension) :
    (∀ (texts : List String) (batch_size? : Option Nat),
      (get_embeddings_batch provider dimension texts batch_size?).length =
        texts.length) ∧
    (∀ (texts : List String) (batch_size? : Option Nat),
      ∀ v ∈ get_embeddings_batch provider dimension texts batch_size?,
        v.length = dimension) ∧
    (∀ (t : String) (ts : List String) (bs : Nat), bs ≠ 0 →
      provider ((t :: ts.take (bs - 1)).map prepare) = Except.error () →
      get_embeddings_batch provider dimension (t :: ts) (some bs) =
        ((t :: ts.take (bs - 1)).map fun _ => zeroVec dimension) ++
          get_embeddings_batch provider dimension (ts.drop (bs - 1)) (some bs)) := by
  refine ⟨?_, ?_, ?_⟩
  · intro texts batch_size?
    rw [get_embeddings_batch]
    by_cases h : texts = []
    · simp [h]
    · rw [if_neg h]
      exact processBatches_length provider dimension _
        (fun b e hp => (hprov b e hp).1) texts.length texts le_rfl
  · intro texts batch_size? v hv
    rw [get_embeddings_batch] at hv
    by_cases h : texts = []
    · simp [h] at hv
    · rw [if_neg h] at hv
      exact processBatches_dimension provider dimension _
        (fun b e hp => (hprov b e hp).2) texts.length texts le_rfl v hv
  · intro t ts bs hbs hfail
    have hbs' : effectiveBatchSize (some bs) = bs := by
      match bs, hbs with
      | b + 1, _ => rfl
    rw [get_embeddings_batch, if_neg (by simp), hbs', processBatches, hfail]
    by_cases hdrop : ts.drop (bs - 1) = []
    · rw [hdrop]
      simp [get_embeddings_batch, processBatches]
    · rw [get_embeddings_batch, if_neg hdrop, hbs']

/-- Witness for C3 at three texts with batch size 2: the provider
succeeds on the first (full) batch and fails on the second, which
degrades to a zero vector; the run still returns three one-dimensional
vectors. -/
theorem C3_batch_embedding_total_witness :
    (get_embeddings_batch
        (fun b => if b.length = 2 then Except.ok (b.map fun _ => [5]) else Except.error ())
        1 ["a", "b", "c"] (some 2)).length = 3 ∧
    ∀ v ∈ get_embeddings_batch
        (fun b => if b.length = 2 then Except.ok (b.map fun _ => [5]) else Except.error ())
        1 ["a", "b", "c"] (some 2), v.length = 1 := by
  have h := C3_batch_embedding_total
    (fun b => if b.length = 2 then Except.ok (b.map fun _ => [5]) else Except.error ())
    1 (by
      intro b e hp
      simp only at hp
      by_cases hb : b.length = 2
      · rw [if_pos hb] at hp
        cases hp
        constructor
        · simp
        · intro v hv
          rw [List.mem_map] at hv
          obtain ⟨_, _, hz⟩ := hv
          rw [← hz]
          rfl
      · rw [if_neg hb] at hp
        cases hp)
  exact ⟨h.1 ["a", "b", "c"] (some 2), h.2.1 ["a", "b", "c"] (some 2)⟩

/-- Inserting into the distance-sorted list adds exactly that element. -/
theorem mem_insertDist (a x : Nat × ℚ) (l : List (Nat × ℚ)) :
    x ∈ insertDist a l ↔ x = a ∨ x ∈ l := by
  induction l with
  | nil => simp [insertDist]
  | cons b bs ih =>
    rw [insertDist]
    by_cases h : a.2 ≤ b.2
    · rw [if_pos h]
      simp [List.mem_cons]
    · rw [if_neg h]
      simp only [List.mem_cons, ih]
      tauto

/-- Insertion preserves ascending-distance ordering. -/
theorem pairwise_insertDist (a : Nat × ℚ) (l : List (Nat × ℚ))
    (h : l.Pairwise (fun p r => p.2 ≤ r.2)) :
    (insertDist a l).Pairwise (fun p r => p.2 ≤ r.2) := by
  induction l with
  | nil => simp [insertDist]
  | cons b bs ih =>
    rcases List.pairwise_cons.mp h with ⟨hb, hbs⟩
    rw [insertDist]
    by_cases hab : a.2 ≤ b.2
    · rw [if_pos hab]
      apply List.pairwise_cons.mpr
      refine ⟨?_, h⟩
      intro x hx
      rcases List.mem_cons.mp hx with rfl | hx
      · exact hab
      · exact le_trans hab (hb x hx)
    · rw [if_neg hab]
      apply List.pairwise_cons.mpr
      refine ⟨?_, ih hbs⟩
      intro x hx
      rcases (mem_insertDist a x bs).mp hx with rfl | hx
      · exact le_of_not_le hab
      · exact hb x hx

/-- The distance sort is sorted by ascending distance. -/
theorem pairwise_sortDist (l : List (Nat × ℚ)) :
    (sortDist l).Pairwise (fun p r => p.2 ≤ r.2) := by
  induction l with
  | nil => simp [sortDist]
  | cons a as ih =>
    rw [sortDist]
    exact pairwise_insertDist a _ ih

/-- The distance sort is a permutation at the level of membership. -/
theorem mem_sortDist (x : Nat × ℚ) (l : List (Nat × ℚ)) :
    x ∈ sortDist l ↔ x ∈ l := by
  induction l with
  | nil => simp [sortDist]
  | cons a as ih =>
    rw [sortDist, mem_insertDist]
    simp [ih]

/-- Squared L2 distance is non-negative. -/
theorem l2sq_nonneg (u v : List ℚ) : 0 ≤ l2sq u v := by
  apply List.sum_nonneg
  intro x hx
  rw [List.mem_map] at hx
  obtain ⟨p, _, rfl⟩ := hx
  positivity

/-- The modelled FAISS search returns distances in ascending order. -/
theorem faissSearch_sorted (vecs : List (List ℚ)) (q : List ℚ) (k : Nat) :
    (faissSearch vecs q k).Pairwise (fun p r => p.2 ≤ r.2) :=
  List.Pairwise.sublist (List.take_sublist _ _) (pairwise_sortDist _)

/-- Every distance returned by the modelled FAISS search is non-negative. -/
theorem faissSearch_nonneg (vecs : List (List ℚ)) (q : List ℚ) (k : Nat) :
    ∀ p ∈ faissSearch vecs q k, 0 ≤ p.2 := by
  intro p hp
  have hp' : p ∈ sortDist (vecs.enum.map fun r => (r.1, l2sq q r.2)) :=
    List.mem_of_mem_take hp
  rw [mem_sortDist, List.mem_map] at hp'
  obtain ⟨r, _, rfl⟩ := hp'
  exact l2sq_nonneg _ _

/-- `search` on an uninitialized index. -/
theorem search_eq_of_none (st : VectorDB.State) (q : List ℚ) (k : Nat)
    (hidx : st.index = none) : search st q k = Except.ok [] := by
  unfold search
  rw [hidx]

/-- `search` on an initialized index, unfolded. -/
theorem search_eq_of_some (st : VectorDB.State) (vecs : List (List ℚ))
    (q : List ℚ) (k : Nat) (hidx : st.index = some vecs) :
    search st q k =
      if vecs.length = 0 then Except.ok []
      else if q.length ≠ st.dimension then
        Except.error "Query vector dimension mismatch"
      else Except.ok ((faissSearch vecs q (min k vecs.length)).map fun p =>
        (p.1, p.2, (st.metadata.get? p.1).getD Meta.empty)) := by
  unfold search
  rw [hidx]

/-- A successful `search` returns hits in ascending-distance order, with
all distances non-negative. -/
theorem search_ok_sorted (st : VectorDB.State) (q : List ℚ) (k : Nat)
    (l : List (Nat × ℚ × Meta)) (h : search st q k = Except.ok l) :
    l.Pairwise (fun a b => a.2.1 ≤ b.2.1) ∧ ∀ a ∈ l, 0 ≤ a.2.1 := by
  cases hidx : st.index with
  | none =>
    rw [search_eq_of_none st q k hidx] at h
    cases h
    simp
  | some vecs =>
    rw [search_eq_of_some st vecs q k hidx] at h
    by_cases hlen : vecs.length = 0
    · rw [if_pos hlen] at h
      cases h
      simp
    · rw [if_neg hlen] at h
      by_cases hdim : q.length ≠ st.dimension
      · rw [if_pos hdim] at h
        cases h
      · rw [if_neg hdim] at h
        cases h
        constructor
        · exact List.Pairwise.map _ (fun a b hab => hab)
            (faissSearch_sorted vecs q (min k vecs.length))
        · intro a ha
          rw [List.mem_map] at ha
          obtain ⟨p, hp, rfl⟩ := ha
          exact faissSearch_nonneg vecs q _ p hp

/-- Relation-preserving `filterMap` respects `Pairwise`. -/
theorem pairwise_filterMap_of {α β : Type} (f : α → Option β)
    (R : α → α → Prop) (S : β → β → Prop)
    (H : ∀ a b, R a b → ∀ x ∈ f a, ∀ y ∈ f b, S x y) :
    ∀ l : List α, l.Pairwise R → (l.filterMap f).Pairwise S := by
  intro l
  induction l with
  | nil => intro _; simp
  | cons a as ih =>
    intro hl
    rcases List.pairwise_cons.mp hl with ⟨ha, has⟩
    rw [List.filterMap_cons]
    cases hfa : f a with
    | none => exact ih has
    | some b =>
      apply List.pairwise_cons.mpr
      refine ⟨?_, ih has⟩
      intro y hy
      rw [List.mem_filterMap] at hy
      obtain ⟨a', ha', hfa'⟩ := hy
      exact H a a' (ha a' ha') b (by rw [hfa]; exact rfl) y hfa'

/-- A successful `search_with_scores` returns hits in descending order of
similarity score. -/
theorem search_with_scores_sorted (st : VectorDB.State) (q : List ℚ) (k : Nat)
    (thr : Option ℚ) (l : List ScoredResult)
    (h : search_with_scores st q k thr = Except.ok l) :
    l.Pairwise (fun a b => b.similarity_score ≤ a.similarity_score) := by
  unfold search_with_scores at h
  cases hs : search st q k with
  | error e =>
    rw [hs] at h
    cases h
  | ok res =>
    rw [hs] at h
    simp only [Except.map] at h
    cases h
    obtain ⟨hsorted, hnn⟩ := search_ok_sorted st q k res hs
    have hsorted' : res.Pairwise
        (fun a b => a.2.1 ≤ b.2.1 ∧ 0 ≤ a.2.1 ∧ 0 ≤ b.2.1) := by
      apply List.Pairwise.imp_of_mem ?_ hsorted
      intro a b ha hb hab
      exact ⟨hab, hnn a ha, hnn b hb⟩
    apply pairwise_filterMap_of _ _ _ ?_ res hsorted'
    intro a b hab x hx y hy
    have hsim : (1 : ℚ) / (1 + b.2.1) ≤ 1 / (1 + a.2.1) := by
      apply one_div_le_one_div_of_le
      · linarith [hab.2.1]
      · linarith [hab.1]
    have hxs : x.similarity_score = 1 / (1 + a.2.1) := by
      simp only [Option.mem_def] at hx
      split at hx
      · split at hx
        · cases hx
        · cases hx
          rfl
      · cases hx
        rfl
    have hys : y.similarity_score = 1 / (1 + b.2.1) := by
      simp only [Option.mem_def] at hy
      split at hy
      · split at hy
        · cases hy
        · cases hy
          rfl
      · cases hy
        rfl
    rw [hxs, hys]
    exact hsim

/-- `search_with_scores` with `k = 0` returns no hits (the over-fetch
count `top_k * 3` vanishes when `top_k = 0`). -/
theorem search_with_scores_zero (st : VectorDB.State) (q : List ℚ)
    (thr : Option ℚ) (l : List ScoredResult)
    (h : search_with_scores st q 0 thr = Except.ok l) : l = [] := by
  unfold search_with_scores at h
  cases hs : search st q 0 with
  | error e =>
    rw [hs] at h
    cases h
  | ok res =>
    rw [hs] at h
    simp only [Except.map] at h
    cases h
    have hres : res = [] := by
      cases hidx : st.index with
      | none =>
        rw [search_eq_of_none st q 0 hidx] at hs
        cases hs
        rfl
      | some vecs =>
        rw [search_eq_of_some st vecs q 0 hidx] at hs
        by_cases hlen : vecs.length = 0
        · rw [if_pos hlen] at hs
          cases hs
          rfl
        · rw [if_neg hlen] at hs
          by_cases hdim : q.length ≠ st.dimension
          · rw [if_pos hdim] at hs
            cases hs
          · rw [if_neg hdim] at hs
            cases hs
            simp [faissSearch]
    subst hres
    rfl

/-- The result-collection loop never exceeds `top_k` accepted results
when it starts below the cap. -/
theorem collectResults_length {δ : Type}
    (lookup : Option Nat → Option String → Option δ) (top_k : Nat) :
    ∀ (rs : List ScoredResult) (acc : List (SearchHit δ)), acc.length < top_k →
      (collectResults lookup top_k rs acc).length ≤ top_k := by
  intro rs
  induction rs with
  | nil =>
    intro acc h
    rw [collectResults]
    omega
  | cons r rest ih =>
    intro acc h
    rw [collectResults]
    split
    · exact ih acc h
    · split
      · split
        next hbreak =>
          simp only [List.length_append, List.length_cons, List.length_nil] at hbreak ⊢
          omega
        next hbreak =>
          apply ih
          simp only [List.length_append, List.length_cons, List.length_nil] at hbreak ⊢
          omega
      · split
        next hbreak => omega
        next hbreak => exact ih acc h

/-- The result-collection loop preserves descending similarity order:
results are appended in the order of the (descending-sorted) candidate
list. -/
theorem collectResults_sorted {δ : Type}
    (lookup : Option Nat → Option String → Option δ) (top_k : Nat) :
    ∀ (rs : List ScoredResult) (acc : List (SearchHit δ)),
      rs.Pairwise (fun a b => b.similarity_score ≤ a.similarity_score) →
      acc.Pairwise (fun a b => b.similarity_score ≤ a.similarity_score) →
      (∀ a ∈ acc, ∀ r ∈ rs, r.similarity_score ≤ a.similarity_score) →
      (collectResults lookup top_k rs acc).Pairwise
        (fun a b => b.similarity_score ≤ a.similarity_score) := by
  intro rs
  induction rs with
  | nil =>
    intro acc _ hacc _
    rw [collectResults]
    exact hacc
  | cons r rest ih =>
    intro acc hrs hacc hcross
    rcases List.pairwise_cons.mp hrs with ⟨hr, hrest⟩
    rw [collectResults]
    split
    · exact ih acc hrest hacc
        (fun a ha r' hr' => hcross a ha r' (List.mem_cons_of_mem _ hr'))
    · split
      next d hl =>
        have hacc' : (acc ++
            [(⟨d, r.similarity_score, r.distance, r.metadata.chunk_text⟩ : SearchHit δ)]).Pairwise
            (fun (a b : SearchHit δ) => b.similarity_score ≤ a.similarity_score) := by
          rw [List.pairwise_append]
          refine ⟨hacc, by simp, ?_⟩
          intro a ha b hb
          rw [List.mem_singleton] at hb
          subst hb
          exact hcross a ha r (List.mem_cons_self _ _)
        split
        next hbreak => exact hacc'
        next hbreak =>
          apply ih _ hrest hacc'
          intro a ha r' hr'
          rcases List.mem_append.mp ha with ha | ha
          · exact hcross a ha r' (List.mem_cons_of_mem _ hr')
          · rw [List.mem_singleton] at ha
            subst ha
            exact hr r' hr'
      next hl =>
        split
        next hbreak => exact hacc
        next hbreak =>
          exact ih acc hrest hacc
            (fun a ha r' hr' => hcross a ha r' (List.mem_cons_of_mem _ hr'))

/-- C2: for every non-empty query and every `top_k`, a successful
`search_documents` returns at most `top_k` results, ordered by
descending similarity score. -/
theorem C2_search_documents_ranked {δ : Type}
    (embed : String → Except Unit (List ℚ)) (st : VectorDB.State)
    (lookup : Option Nat → Option String → Option δ) (query : String)
    (top_k : Nat) (score_threshold : Option ℚ) (out : List (SearchHit δ))
    (hq : isBlank query = false)
    (h : search_documents embed st lookup query top_k score_threshold =
      Except.ok out) :
    out.length ≤ top_k ∧
    out.Pairwise (fun a b => b.similarity_score ≤ a.similarity_score) := by
  unfold search_documents at h
  rw [if_neg (by simp [hq])] at h
  split at h
  next e he =>
    cases h
    simp
  next query_embedding he =>
    cases hs : search_with_scores st query_embedding (top_k * 3) score_threshold with
    | error e =>
      rw [hs] at h
      cases h
    | ok search_results =>
      rw [hs] at h
      simp only [Except.map] at h
      cases h
      by_cases hempty : search_results = []
      · rw [if_pos hempty]
        simp
      · rw [if_neg hempty]
        rcases Nat.eq_zero_or_pos top_k with htop | htop
        · subst htop
          exact absurd (search_with_scores_zero st query_embedding score_threshold
            search_results (by simpa using hs)) hempty
        · constructor
          · exact collectResults_length lookup top_k search_results [] (by simpa using htop)
          · exact collectResults_sorted lookup top_k search_results []
              (search_with_scores_sorted st query_embedding (top_k * 3)
                score_threshold search_results hs)
              (by simp) (by simp)

/-- Witness for C2 at a non-empty query over an uninitialized index:
the returned list is empty, trivially within `top_k` and sorted. -/
theorem C2_search_documents_ranked_witness :
    isBlank "q" = false ∧
    search_documents (fun _ => Except.ok []) (⟨3, none, []⟩ : VectorDB.State)
      (fun _ _ => (none : Option Nat)) "q" 5 none = Except.ok [] ∧
    ([] : List (SearchHit Nat)).length ≤ 5 ∧
    ([] : List (SearchHit Nat)).Pairwise
      (fun a b => b.similarity_score ≤ a.similarity_score) :=
  ⟨rfl, rfl,
    C2_search_documents_ranked (fun _ => Except.ok []) ⟨3, none, []⟩
      (fun _ _ => (none : Option Nat)) "q" 5 none [] rfl rfl⟩
